import Mathlib

/-!
Verification of the pyxcsg scene-graph builder (src/xcsg/impl.py, src/xcsg/api.py).

The embedding models the in-memory node tree, child validation, the bind-time
flatten step, the pre-serialization balancing pass (tree_struct), the transform
operators, and the document serializer, translated from the Python source.
Matrix/vector entries are modelled as rationals (the Python code uses floats via
PyGLM; no claim here depends on rounding).  PyGLM internals (construction of
rotation matrices from angles, vector normalization) are out of scope per the
spec and are taken as already-computed inputs where needed.
-/

namespace Xcsg

/-- Component type of vectors and matrices (Python floats, modelled exactly). -/
abbrev Scalar := ℚ

/-- A 3-component vector (glm.vec3). -/
structure Vec3 where
  x : Scalar
  y : Scalar
  z : Scalar
deriving DecidableEq, Repr

/-- A 4-component vector (glm.vec4). -/
structure Vec4 where
  x : Scalar
  y : Scalar
  z : Scalar
  w : Scalar
deriving DecidableEq, Repr

/-- Componentwise addition of glm.vec4 values. -/
def Vec4.add (a b : Vec4) : Vec4 :=
  ⟨a.x + b.x, a.y + b.y, a.z + b.z, a.w + b.w⟩

/-- Scalar multiple of a glm.vec4. -/
def Vec4.smul (s : Scalar) (v : Vec4) : Vec4 :=
  ⟨s * v.x, s * v.y, s * v.z, s * v.w⟩

/-- A 4x4 matrix in glm column-major convention: c0..c3 are the columns,
so mm[3] in the Python source is the translation column c3. -/
structure Mat4 where
  c0 : Vec4
  c1 : Vec4
  c2 : Vec4
  c3 : Vec4
deriving DecidableEq, Repr

/-- glm.identity(glm.mat4x4), the IDENTITY constant of xcsg/common.py. -/
def IDENTITY : Mat4 :=
  ⟨⟨1, 0, 0, 0⟩, ⟨0, 1, 0, 0⟩, ⟨0, 0, 1, 0⟩, ⟨0, 0, 0, 1⟩⟩

/-- Matrix-vector product A*v for the glm column-major layout. -/
def Mat4.mulVec (m : Mat4) (v : Vec4) : Vec4 :=
  (Vec4.smul v.x m.c0).add ((Vec4.smul v.y m.c1).add
    ((Vec4.smul v.z m.c2).add (Vec4.smul v.w m.c3)))

/-- Matrix product A*B for the glm column-major layout. -/
def Mat4.mul (a b : Mat4) : Mat4 :=
  ⟨a.mulVec b.c0, a.mulVec b.c1, a.mulVec b.c2, a.mulVec b.c3⟩

/-- The glm.scale(M, s) operation: postmultiplication by a diagonal scale,
i.e. the first three columns scaled componentwise, translation kept. -/
def scaleMM (m : Mat4) (s : Vec3) : Mat4 :=
  ⟨Vec4.smul s.x m.c0, Vec4.smul s.y m.c1, Vec4.smul s.z m.c2, m.c3⟩

-- -----------------------------------------------------------------
-- Node classes (the Python class of each node, needed for isinstance
-- checks; the hierarchy below Obj2D/Obj3D is flat, so an isinstance
-- test against a concrete class is class equality).
-- -----------------------------------------------------------------

/-- The Python classes of nodes modelled here (a representative subset of
api.py covering every class the claims mention). -/
inductive Cls where
  | Circle | Square | Union2D | Diff2D | Minkowski2D | Hull2D
  | Cube | Sphere | Union3D | Diff3D | Sweep | LinearExtrude
deriving DecidableEq, Repr

/-- Capability tags: the Obj2D / Obj3D base classes of impl.py. -/
inductive Dim where
  | d2 | d3
deriving DecidableEq, Repr

/-- Which base class (Obj2D or Obj3D) each node class derives from.
Note Sweep and LinearExtrude are Obj3D (they produce solids) although
their required child capability is Obj2D. -/
def dimOf : Cls → Dim
  | .Circle | .Square | .Union2D | .Diff2D | .Minkowski2D | .Hull2D => .d2
  | .Cube | .Sphere | .Union3D | .Diff3D | .Sweep | .LinearExtrude => .d3

/-- The node_name string passed to Obj.__init__ by each class. -/
def nodeName : Cls → String
  | .Circle => "circle"
  | .Square => "square"
  | .Union2D => "union2d"
  | .Diff2D => "difference2d"
  | .Minkowski2D => "minkowski2d"
  | .Hull2D => "hull2d"
  | .Cube => "cube"
  | .Sphere => "sphere"
  | .Union3D => "union3d"
  | .Diff3D => "difference3d"
  | .Sweep => "sweep"
  | .LinearExtrude => "linear_extrude"

/-- The classes whose __call__ is FlattenerOp2D.__call__ / FlattenerOp3D.__call__
(only the two union classes). -/
def isFlattenerCls : Cls → Bool
  | .Union2D | .Union3D => true
  | _ => false

/-- The ChildValidator data of impl.py: required child base class and
optional min/max child counts. -/
structure Validator where
  child_dim : Dim
  min_cnt : Option ℕ
  max_cnt : Option ℕ
deriving DecidableEq, Repr

/-- The child_validator each class passes to Obj.__init__ (none for leaf
shapes).  MoreChildren = min 1, no max; OneChild = exactly 1;
TwoChildren = exactly 2. -/
def validatorOf : Cls → Option Validator
  | .Circle | .Square | .Cube | .Sphere => none
  | .Union2D => some ⟨.d2, some 1, none⟩
  | .Diff2D => some ⟨.d2, some 1, none⟩
  | .Hull2D => some ⟨.d2, some 1, none⟩
  | .Minkowski2D => some ⟨.d2, some 2, some 2⟩
  | .Union3D => some ⟨.d3, some 1, none⟩
  | .Diff3D => some ⟨.d3, some 1, none⟩
  | .Sweep => some ⟨.d2, some 1, some 1⟩
  | .LinearExtrude => some ⟨.d2, some 1, some 1⟩

-- -----------------------------------------------------------------
-- Attribute values and the node type
-- -----------------------------------------------------------------

/-- A primitive attribute value as passed to a node constructor. -/
inductive AttrVal where
  | b (v : Bool)
  | q (v : Scalar)
  | s (v : String)
deriving DecidableEq, Repr

/-- A spline control point of a Sweep: position and tangent. -/
structure CPoint where
  p : Vec3
  v : Vec3
deriving DecidableEq, Repr

/-- An in-memory node (class Obj of impl.py and subclasses).
Fields mirror the Python instance attributes: the class (standing for
node_name and child_validator, which are functions of it), the constructor
attrs, model_matrix, the bound children objs, the Sweep spline_path payload
(empty for other classes), and the FlattenerOp flatten flag (only meaningful
for Union2D/Union3D; true elsewhere). -/
inductive Obj : Type where
  | mk (cls : Cls) (attrs : List (String × AttrVal)) (model_matrix : Mat4)
       (objs : List Obj) (spline_path : List CPoint) (flattenFlag : Bool)

/-- Python class of a node. -/
def Obj.cls : Obj → Cls
  | .mk c _ _ _ _ _ => c

/-- Constructor attributes of a node. -/
def Obj.attrs : Obj → List (String × AttrVal)
  | .mk _ a _ _ _ _ => a

/-- The model_matrix attribute. -/
def Obj.model_matrix : Obj → Mat4
  | .mk _ _ m _ _ _ => m

/-- The objs attribute (bound children). -/
def Obj.objs : Obj → List Obj
  | .mk _ _ _ o _ _ => o

/-- The spline_path attribute of a Sweep (empty for other classes). -/
def Obj.spline_path : Obj → List CPoint
  | .mk _ _ _ _ s _ => s

/-- The flatten flag of a FlattenerOp (true by default). -/
def Obj.flattenFlag : Obj → Bool
  | .mk _ _ _ _ _ f => f

/-- Assignment self.objs = ... -/
def Obj.setObjs : Obj → List Obj → Obj
  | .mk c a m _ s f, o => .mk c a m o s f

/-- Assignment self.model_matrix = ... -/
def Obj.setMM : Obj → Mat4 → Obj
  | .mk c a _ o s f, m => .mk c a m o s f

-- -----------------------------------------------------------------
-- Constructors of the api.py classes used by the claims
-- -----------------------------------------------------------------

/-- A freshly constructed operator node of a given class (identity matrix,
no children); the flag argument is the flatten keyword of the union
constructors (ignored by the others, which keep the default true). -/
def mkOp (cls : Cls) (flag : Bool) : Obj :=
  .mk cls [] IDENTITY [] [] flag

/-- Circle(r). -/
def Circle (r : Scalar) : Obj :=
  .mk .Circle [("r", .q r)] IDENTITY [] [] true

/-- Square(size, center). -/
def Square (size : Scalar) (center : Bool) : Obj :=
  .mk .Square [("size", .q size), ("center", .b center)] IDENTITY [] [] true

/-- Cube(size, center). -/
def Cube (size : Scalar) (center : Bool) : Obj :=
  .mk .Cube [("size", .q size), ("center", .b center)] IDENTITY [] [] true

/-- Sphere(r). -/
def Sphere (r : Scalar) : Obj :=
  .mk .Sphere [("r", .q r)] IDENTITY [] [] true

/-- Sweep(spline_path). -/
def Sweep (sp : List CPoint) : Obj :=
  .mk .Sweep [] IDENTITY [] sp true

/-- LinearExtrude(dz). -/
def LinearExtrude (dz : Scalar) : Obj :=
  .mk .LinearExtrude [("dz", .q dz)] IDENTITY [] [] true

-- -----------------------------------------------------------------
-- Child validation and binding
-- -----------------------------------------------------------------

/-- Outcomes of the assert statements guarding binding.  The Python source
raises AssertionError in each case; following the spec taxonomy we label the
count asserts of ChildValidator.validate as arityError, its isinstance
assert as typeMismatchError, and the assert self.child_validator is not None
of Obj.__call__ as missingValidator. -/
inductive Err where
  | arityError
  | typeMismatchError
  | missingValidator
deriving DecidableEq, Repr

/-- The isinstance(o, self.child_type) assert, applied to each child in
order (first failure wins, as in the Python for loop). -/
def checkChildren (d : Dim) : List Obj → Except Err Unit
  | [] => .ok ()
  | o :: rest => if dimOf o.cls = d then checkChildren d rest else .error .typeMismatchError

/-- ChildValidator.validate of impl.py: check min count, then max count,
then the capability of every child. -/
def Validator.validate (v : Validator) (objs : List Obj) : Except Err Unit :=
  let cnt := objs.length
  match v.min_cnt with
  | some m => if cnt < m then .error .arityError else
      match v.max_cnt with
      | some M => if M < cnt then .error .arityError else checkChildren v.child_dim objs
      | none => checkChildren v.child_dim objs
  | none =>
      match v.max_cnt with
      | some M => if M < cnt then .error .arityError else checkChildren v.child_dim objs
      | none => checkChildren v.child_dim objs

/-- The module-level flatten function of impl.py: splice the children of
every operand that is an instance of the parent node class (exact class
here, since the union classes have no subclasses) with a componentwise
equal model matrix; keep other operands as they are. -/
def flatten (parent : Obj) (objs : List Obj) : List Obj :=
  objs.flatMap fun o =>
    if o.cls = parent.cls ∧ o.model_matrix = parent.model_matrix then o.objs else [o]

/-- Binding: Obj.__call__ for plain classes, FlattenerOp2D.__call__ /
FlattenerOp3D.__call__ for the union classes (validate, then store either
the flattened or the raw operand list, and return self). -/
def Obj.call (o : Obj) (objs : List Obj) : Except Err Obj :=
  if isFlattenerCls o.cls then
    match validatorOf o.cls with
    | none => .error .missingValidator
    | some v =>
      match v.validate objs with
      | .error e => .error e
      | .ok _ => .ok (o.setObjs (if o.flattenFlag then flatten o objs else objs))
  else
    match validatorOf o.cls with
    | none => .error .missingValidator
    | some v =>
      match v.validate objs with
      | .error e => .error e
      | .ok _ => .ok (o.setObjs objs)

/-- Obj2D.__add__ / Obj3D.__add__: construct a fresh union of the
capability of the left operand and bind both operands. -/
def Obj.add (a b : Obj) : Except Err Obj :=
  match dimOf a.cls with
  | .d2 => (mkOp .Union2D true).call [a, b]
  | .d3 => (mkOp .Union3D true).call [a, b]

/-- Obj2D.__sub__ / Obj3D.__sub__: construct a fresh difference node of the
capability of the left operand and bind both operands. -/
def Obj.sub (a b : Obj) : Except Err Obj :=
  match dimOf a.cls with
  | .d2 => (mkOp .Diff2D true).call [a, b]
  | .d3 => (mkOp .Diff3D true).call [a, b]

-- -----------------------------------------------------------------
-- Vector-like inputs and their conversions (api.py to_vec3 / to_vec4)
-- -----------------------------------------------------------------

/-- A vector-like argument to a transform operator: a Python list or tuple
of numbers, or a glm vector (glm.vec1/vec2/vec3/vec4, with 1 to 4
components; other gvec lengths do not arise). -/
inductive VecInput where
  | pylist (cs : List Scalar)
  | gvec (cs : List Scalar)
deriving DecidableEq, Repr

/-- Number of components of a vector-like input. -/
def VecInput.len : VecInput → ℕ
  | .pylist cs => cs.length
  | .gvec cs => cs.length

/-- Build a Vec3 from the first three entries of a component list. -/
def vec3OfList (cs : List Scalar) : Vec3 :=
  ⟨cs.getD 0 0, cs.getD 1 0, cs.getD 2 0⟩

/-- to_vec3 of api.py.  list/tuple/vec1/vec2 inputs shorter than 3 are
padded with trailing zeros; a 3-component input is taken as is; a vec4 is
truncated to xyz.  A list or tuple longer than 4 components makes the
glm.vec3 constructor raise, modelled as none. -/
def to_vec3 (v : VecInput) : Option Vec3 :=
  match v with
  | .pylist cs =>
      if cs.length < 3 then some (vec3OfList (cs ++ List.replicate (3 - cs.length) 0))
      else if cs.length = 3 then some (vec3OfList cs) else none
  | .gvec cs =>
      if cs.length < 3 then some (vec3OfList (cs ++ List.replicate (3 - cs.length) 0))
      else if cs.length = 3 then some (vec3OfList cs)
      else if cs.length = 4 then some (vec3OfList cs) else none

/-- to_vec4 of api.py.  A vec4 is returned as is; a list/tuple/vec3/vec2
shorter than 4 becomes (to_vec3(v), 0); a 4-component list becomes a vec4;
anything else (in particular glm.vec1, which reaches the assert False, and
overlong lists) fails. -/
def to_vec4 (v : VecInput) : Option Vec4 :=
  match v with
  | .gvec cs =>
      if cs.length = 4 then some ⟨cs.getD 0 0, cs.getD 1 0, cs.getD 2 0, cs.getD 3 0⟩
      else if cs.length = 2 ∨ cs.length = 3 then
        (to_vec3 v).map fun u => ⟨u.x, u.y, u.z, 0⟩
      else none
  | .pylist cs =>
      if cs.length < 4 then (to_vec3 v).map fun u => ⟨u.x, u.y, u.z, 0⟩
      else if cs.length = 4 then some ⟨cs.getD 0 0, cs.getD 1 0, cs.getD 2 0, cs.getD 3 0⟩
      else none

/-- The matrix update performed by translate of api.py:
obj.model_matrix[3] = glm.vec4(obj.model_matrix[3]) + v. -/
def translateMM (m : Mat4) (v : Vec4) : Mat4 :=
  { m with c3 := m.c3.add v }

/-- The translate operator at the value level (the copy-on-write aspect is
modelled separately on the heap): convert v with to_vec4 and add it to the
translation column.  none models the AssertionError of to_vec4. -/
def translate (v : VecInput) (o : Obj) : Option Obj :=
  (to_vec4 v).map fun v4 => o.setMM (translateMM o.model_matrix v4)

/-- The list-padding step of scale in api.py: only list/tuple inputs
shorter than 3 get their missing dimensions set to 1; glm vector inputs are
passed to to_vec3 unchanged. -/
def scalePad (v : VecInput) : VecInput :=
  match v with
  | .pylist cs => if cs.length < 3 then .pylist (cs ++ List.replicate (3 - cs.length) 1) else v
  | .gvec _ => v

/-- The effective scale vector of the scale operator: pad (for list/tuple
inputs), then to_vec3. -/
def scaleVec (v : VecInput) : Option Vec3 :=
  to_vec3 (scalePad v)

/-- The scale operator at the value level:
obj.model_matrix = glm.scale(obj.model_matrix, to_vec3(v)). -/
def scale (v : VecInput) (o : Obj) : Option Obj :=
  (scaleVec v).map fun s => o.setMM (scaleMM o.model_matrix s)

-- -----------------------------------------------------------------
-- Balancing pass (impl.py tree_struct / tree_children)
-- -----------------------------------------------------------------

/-- The node op_cls(flatten=False)(children) created inside tree_struct: a
fresh union of the given class with flattening disabled, bound to the given
children (its MoreChildren validator passes on every list tree_struct
builds: non-empty lists of already-validated same-capability children). -/
def bindNF (cls : Cls) (children : List Obj) : Obj :=
  (mkOp cls false).setObjs children

/-- One pass of the pairing loop in tree_struct: group children
left-to-right into consecutive pairs; when the list length is odd the loop
reaches the second-to-last pair with three elements left and groups those
three into one ternary node instead. -/
def pairUp (cls : Cls) : List Obj → List Obj
  | [] => []
  | [_] => []
  | [p0, p1] => [bindNF cls [p0, p1]]
  | [p0, p1, p2] => [bindNF cls [p0, p1, p2]]
  | p0 :: p1 :: p2 :: p3 :: rest => bindNF cls [p0, p1] :: pairUp cls (p2 :: p3 :: rest)

/-- Fuel-driven form of the tree_struct recursion of impl.py; the fuel
only bounds the number of pairing rounds and tree_struct supplies enough of
it (each round at least halves the list), as the unfolding theorem below
proves. -/
def tree_structF (cls : Cls) : ℕ → List Obj → List Obj
  | 0, parts => parts
  | fuel + 1, parts =>
      if parts.length ≤ 3 then parts else tree_structF cls fuel (pairUp cls parts)

/-- tree_struct of impl.py: repeatedly pair up the list until at most 3
parts remain; a list of 3 or fewer parts is returned unchanged. -/
def tree_struct (cls : Cls) (parts : List Obj) : List Obj :=
  tree_structF cls parts.length parts

/-- tree_children of impl.py: op.objs = tree_struct(type(op), op.objs). -/
def tree_children (op : Obj) : Obj :=
  op.setObjs (tree_struct op.cls op.objs)

-- -----------------------------------------------------------------
-- Document serializer (impl.py mk_node / Obj.to_element)
-- -----------------------------------------------------------------

/-- An element of the emitted document: tag name, attributes, children.
The string conversion mk_node applies to attribute values is kept abstract
(values are stored as AttrVal); no claim depends on number formatting. -/
inductive XElem : Type where
  | mk (name : String) (attrs : List (String × AttrVal)) (children : List XElem)

/-- Children of a document element. -/
def XElem.children : XElem → List XElem
  | .mk _ _ cs => cs

/-- Tag name of a document element. -/
def XElem.name : XElem → String
  | .mk n _ _ => n

/-- The tmatrix element: four trow children built by zipping the four
matrix columns, so trow i carries row i of the matrix as c0..c3. -/
def tmatrixElem (m : Mat4) : XElem :=
  .mk "tmatrix" []
    [ .mk "trow" [("c0", .q m.c0.x), ("c1", .q m.c1.x), ("c2", .q m.c2.x), ("c3", .q m.c3.x)] []
    , .mk "trow" [("c0", .q m.c0.y), ("c1", .q m.c1.y), ("c2", .q m.c2.y), ("c3", .q m.c3.y)] []
    , .mk "trow" [("c0", .q m.c0.z), ("c1", .q m.c1.z), ("c2", .q m.c2.z), ("c3", .q m.c3.z)] []
    , .mk "trow" [("c0", .q m.c0.w), ("c1", .q m.c1.w), ("c2", .q m.c2.w), ("c3", .q m.c3.w)] [] ]

/-- The spline_path element of Sweep._get_child_nodes: one cpoint child
per control point with position and tangent attributes. -/
def splineElem (sp : List CPoint) : XElem :=
  .mk "spline_path" []
    (sp.map fun c =>
      .mk "cpoint"
        [ ("x", .q c.p.x), ("y", .q c.p.y), ("z", .q c.p.z)
        , ("vx", .q c.v.x), ("vy", .q c.v.y), ("vz", .q c.v.z) ] [])

mutual

/-- Obj.to_element of impl.py: an element named after the node kind with
the constructor attrs; a tmatrix child when the matrix is not the identity;
then each bound child serialized in order; then the payload elements from
_get_child_nodes.  For Sweep, _get_child_nodes builds a wrapper element
holding a second serialization of the bound child followed by the
spline_path element, and the caller loop appends the wrapper's children one
by one (lxml prefetches the next sibling before each loop body runs, so
moving the current child does not stop the iteration) - hence the payload
contributed by a Sweep is [child element again, spline_path]; for the other
modelled classes _get_child_nodes returns [].  A Sweep with no bound child
raises IndexError in Python; serialization only happens on bound trees. -/
def Obj.to_element : Obj → XElem
  | .mk cls attrs mm objs spline _ =>
      let childElems := toElements objs
      let payload :=
        if cls = .Sweep then childElems.take 1 ++ [splineElem spline] else []
      .mk (nodeName cls) attrs
        ((if mm = IDENTITY then [] else [tmatrixElem mm]) ++ childElems ++ payload)

/-- Serialization of a child list in order (the for co in self.objs loop). -/
def toElements : List Obj → List XElem
  | [] => []
  | o :: rest => o.to_element :: toElements rest

end

mutual

/-- Obj.deep_copy of impl.py (deepcopy(self)): recursively duplicate every
descendant; in this value semantics the copy is a structurally equal value. -/
def Obj.deep_copy : Obj → Obj
  | .mk cls attrs mm objs spline flag =>
      .mk cls attrs mm (deepCopyList objs) spline flag

/-- Deep copy of a child list. -/
def deepCopyList : List Obj → List Obj
  | [] => []
  | o :: rest => o.deep_copy :: deepCopyList rest

end

-- -----------------------------------------------------------------
-- Heap model (object identity and in-place mutation).
-- Obj.copy, the transform operators and rebinding via Obj.__call__ are
-- about Python object identity and mutation, so they are modelled over an
-- explicit heap: cells indexed by allocation order, child references as
-- indices.  A cell's data mirrors the Obj fields with objs as references.
-- -----------------------------------------------------------------

/-- Per-object state in the heap model. -/
structure ObjData where
  cls : Cls
  attrs : List (String × AttrVal)
  model_matrix : Mat4
  objs : List ℕ
  spline_path : List CPoint
  flattenFlag : Bool
deriving DecidableEq, Repr

/-- A heap of node objects; a node reference is an index into cells. -/
structure Heap where
  cells : List ObjData
deriving DecidableEq, Repr

/-- Dereference a node. -/
def Heap.get? (h : Heap) (i : ℕ) : Option ObjData :=
  h.cells[i]?

/-- Overwrite the state of node i (in-place field assignment). -/
def Heap.setCell (h : Heap) (i : ℕ) (d : ObjData) : Heap :=
  ⟨h.cells.set i d⟩

/-- Obj.copy of impl.py: allocate a clone duplicating the scalar fields
(the deepcopy dance with self.objs temporarily removed leaves the original
unchanged) while the clone's objs is the same child reference list, so the
children themselves are shared, not deep-copied. -/
def Heap.copy (h : Heap) (i : ℕ) : Heap × ℕ :=
  match h.get? i with
  | some d => (⟨h.cells ++ [d]⟩, h.cells.length)
  | none => (h, i)

/-- Componentwise dot product of glm.vec3 values. -/
def Vec3.dot (a b : Vec3) : Scalar :=
  a.x * b.x + a.y * b.y + a.z * b.z

/-- Scalar multiple of a glm.vec3. -/
def Vec3.smul (s : Scalar) (v : Vec3) : Vec3 :=
  ⟨s * v.x, s * v.y, s * v.z⟩

/-- Componentwise difference of glm.vec3 values. -/
def Vec3.sub (a b : Vec3) : Vec3 :=
  ⟨a.x - b.x, a.y - b.y, a.z - b.z⟩

/-- The xyz components of a glm.vec4. -/
def Vec4.xyz (v : Vec4) : Vec3 :=
  ⟨v.x, v.y, v.z⟩

/-- mirror_vector of api.py: reflect v across the plane through the origin
with the given unit normal. -/
def mirror_vector (normal_unit v : Vec3) : Vec3 :=
  let prj_len := normal_unit.dot v
  let scaled_axis := Vec3.smul (2 * prj_len) normal_unit
  v.sub scaled_axis

/-- Heap-level translate of api.py: obj = obj.copy(), then add to_vec4(v)
to the clone's translation column; none models the to_vec4 AssertionError
or a dangling reference. -/
def Heap.translate (h : Heap) (v : VecInput) (i : ℕ) : Option (Heap × ℕ) :=
  let p := h.copy i
  match to_vec4 v, p.1.get? p.2 with
  | some v4, some d =>
      some (p.1.setCell p.2 { d with model_matrix := translateMM d.model_matrix v4 }, p.2)
  | _, _ => none

/-- Heap-level rotate of api.py: obj = obj.copy(), then premultiply the
clone's matrix by the rotation matrix rm (rm = glm.rotate(identity, ang,
axis) is built by the linear-algebra library, out of scope per the spec,
so it is taken as an input here). -/
def Heap.rotate (h : Heap) (rm : Mat4) (i : ℕ) : Option (Heap × ℕ) :=
  let p := h.copy i
  match p.1.get? p.2 with
  | some d => some (p.1.setCell p.2 { d with model_matrix := rm.mul d.model_matrix }, p.2)
  | none => none

/-- Heap-level scale of api.py: obj = obj.copy(), then postmultiply the
clone's matrix by the diagonal scale built from the padded scale vector. -/
def Heap.scale (h : Heap) (v : VecInput) (i : ℕ) : Option (Heap × ℕ) :=
  let p := h.copy i
  match scaleVec v, p.1.get? p.2 with
  | some s, some d =>
      some (p.1.setCell p.2 { d with model_matrix := scaleMM d.model_matrix s }, p.2)
  | _, _ => none

/-- The matrix update of mirror in api.py applied to a unit normal. -/
def mirrorCols (nu : Vec3) (m : Mat4) : Mat4 :=
  let i := mirror_vector nu m.c0.xyz
  let j := mirror_vector nu m.c1.xyz
  let k := mirror_vector nu m.c2.xyz
  let l := mirror_vector nu m.c3.xyz
  ⟨⟨i.x, i.y, i.z, 0⟩, ⟨j.x, j.y, j.z, 0⟩, ⟨k.x, k.y, k.z, 0⟩, ⟨l.x, l.y, l.z, 1⟩⟩

/-- Heap-level mirror of api.py: obj = obj.copy(), then reflect all four
matrix columns across the plane with unit normal nu (the normalization
glm.normalize(to_vec3(normal)) is a library operation, out of scope per
the spec, so the unit normal is taken as an input here). -/
def Heap.mirror (h : Heap) (nu : Vec3) (i : ℕ) : Option (Heap × ℕ) :=
  let p := h.copy i
  match p.1.get? p.2 with
  | some d => some (p.1.setCell p.2 { d with model_matrix := mirrorCols nu d.model_matrix }, p.2)
  | none => none

/-- Heap-level capability check of each bound child in order; a dangling
reference (no Python analogue, since references there are object pointers)
is reported as typeMismatchError. -/
def checkChildrenH (h : Heap) (d : Dim) : List ℕ → Except Err Unit
  | [] => .ok ()
  | i :: rest =>
      match h.get? i with
      | some c => if dimOf c.cls = d then checkChildrenH h d rest else .error .typeMismatchError
      | none => .error .typeMismatchError

/-- ChildValidator.validate over the heap. -/
def Validator.validateH (v : Validator) (h : Heap) (ids : List ℕ) : Except Err Unit :=
  let cnt := ids.length
  match v.min_cnt with
  | some m => if cnt < m then .error .arityError else
      match v.max_cnt with
      | some M => if M < cnt then .error .arityError else checkChildrenH h v.child_dim ids
      | none => checkChildrenH h v.child_dim ids
  | none =>
      match v.max_cnt with
      | some M => if M < cnt then .error .arityError else checkChildrenH h v.child_dim ids
      | none => checkChildrenH h v.child_dim ids

/-- The module-level flatten function over the heap. -/
def flattenH (h : Heap) (parentCls : Cls) (parentMM : Mat4) (ids : List ℕ) : List ℕ :=
  ids.flatMap fun i =>
    match h.get? i with
    | some d => if d.cls = parentCls ∧ d.model_matrix = parentMM then d.objs else [i]
    | none => [i]

/-- Binding over the heap (Obj.__call__ / FlattenerOp2D.__call__ /
FlattenerOp3D.__call__): validate, store the (possibly flattened) operand
list in place, and return the same node reference. -/
def Heap.call (h : Heap) (i : ℕ) (ids : List ℕ) : Except Err (Heap × ℕ) :=
  match h.get? i with
  | none => .error .typeMismatchError
  | some d =>
      match validatorOf d.cls with
      | none => .error .missingValidator
      | some v =>
          match v.validateH h ids with
          | .error e => .error e
          | .ok _ =>
              let stored :=
                if isFlattenerCls d.cls then
                  (if d.flattenFlag then flattenH h d.cls d.model_matrix ids else ids)
                else ids
              .ok (h.setCell i { d with objs := stored }, i)

-- -----------------------------------------------------------------
-- Validator count tests (used to state the arity claims)
-- -----------------------------------------------------------------

/-- Whether a child count falls below the declared minimum. -/
def belowMin (v : Validator) (n : ℕ) : Bool :=
  match v.min_cnt with
  | some m => n < m
  | none => false

/-- Whether a child count exceeds the declared maximum. -/
def aboveMax (v : Validator) (n : ℕ) : Bool :=
  match v.max_cnt with
  | some M => M < n
  | none => false

-- -----------------------------------------------------------------
-- Shape of balanced trees
-- -----------------------------------------------------------------

/-- Trees the balancing pass builds over an operand list: LayerOver cls
parts k o says o is either one of the original parts, or a newly created
union of class cls with flattening disabled whose children are themselves
such trees, with exactly 2 or 3 children at every created node (never 1)
and at most k levels of created nodes above the parts. -/
inductive LayerOver (cls : Cls) (parts : List Obj) : ℕ → Obj → Prop where
  | base {o : Obj} : o ∈ parts → LayerOver cls parts 0 o
  | lift {k : ℕ} {o : Obj} : LayerOver cls parts k o → LayerOver cls parts (k + 1) o
  | node {k : ℕ} {children : List Obj} :
      (∀ c ∈ children, LayerOver cls parts k c) →
      (children.length = 2 ∨ children.length = 3) →
      LayerOver cls parts (k + 1) (bindNF cls children)

-- -----------------------------------------------------------------
-- Concrete instances used by witnesses and counterexamples
-- -----------------------------------------------------------------

/-- The union node produced by Circle(1) + Circle(2). -/
def U12 : Obj :=
  .mk .Union2D [] IDENTITY [Circle 1, Circle 2] [] true

/-- A concrete spline path with a single control point. -/
def sweepPath : List CPoint :=
  [⟨⟨1, 2, 3⟩, ⟨0, 0, 1⟩⟩]

/-- The Sweep node of the serialization counterexample, bound to one
circle. -/
def boundSweep : Obj :=
  .mk .Sweep [] IDENTITY [Circle 17] sweepPath true

/-- The serialized element of Circle(17). -/
def circleElem : XElem :=
  .mk "circle" [("r", .q 17)] []

/-- Heap cell for a circle of radius r. -/
def circleData (r : Scalar) : ObjData :=
  ⟨.Circle, [("r", .q r)], IDENTITY, [], [], true⟩

/-- Heap for the copy-on-write witness: two circles and a union node
referencing both. -/
def heapCOW : Heap :=
  ⟨[circleData 1, circleData 2, ⟨.Union2D, [], IDENTITY, [0, 1], [], true⟩]⟩

/-- Heap for the rebinding claim: three circles, an inner union bound to
circles 1 and 2, and an outer union bound to circle 0. -/
def heapRebind : Heap :=
  ⟨[ circleData 1, circleData 2, circleData 3
   , ⟨.Union2D, [], IDENTITY, [1, 2], [], true⟩
   , ⟨.Union2D, [], IDENTITY, [0], [], true⟩ ]⟩

/-- A union3d node bound to five cubes, input of the balancing witness. -/
def balanceInput : Obj :=
  .mk .Union3D [] IDENTITY
    [Cube 1 true, Cube 2 true, Cube 3 true, Cube 4 true, Cube 5 true] [] true

/-- The union class of a capability (the class the + sugar constructs). -/
def unionClsOf (d : Dim) : Cls :=
  match d with
  | .d2 => .Union2D
  | .d3 => .Union3D

/-- The difference class of a capability (the class the - sugar
constructs). -/
def diffClsOf (d : Dim) : Cls :=
  match d with
  | .d2 => .Diff2D
  | .d3 => .Diff3D

-- =================================================================
-- Theorems
-- =================================================================

theorem Obj.setObjs_self (o : Obj) : o.setObjs o.objs = o := by
  cases o
  rfl

theorem checkChildren_eq (d : Dim) (objs : List Obj) :
    checkChildren d objs =
      if objs.all (fun c => dimOf c.cls == d) then .ok () else .error .typeMismatchError := by
  induction objs with
  | nil => rfl
  | cons o rest ih =>
      by_cases h : dimOf o.cls = d <;> simp [checkChildren, h, ih]

theorem validate_eq (v : Validator) (objs : List Obj) :
    v.validate objs =
      if belowMin v objs.length then .error .arityError
      else if aboveMax v objs.length then .error .arityError
      else checkChildren v.child_dim objs := by
  obtain ⟨cd, mn, mx⟩ := v
  cases mn <;> cases mx <;>
    simp [Validator.validate, belowMin, aboveMax]

theorem call_eq (o : Obj) (objs : List Obj) (v : Validator)
    (hv : validatorOf o.cls = some v) :
    o.call objs =
      match v.validate objs with
      | .error e => .error e
      | .ok _ => .ok (o.setObjs
          (if isFlattenerCls o.cls && o.flattenFlag then flatten o objs else objs)) := by
  by_cases hf : isFlattenerCls o.cls = true <;>
    simp [Obj.call, hv, hf]

theorem call_ok (o : Obj) (objs : List Obj) (v : Validator)
    (hv : validatorOf o.cls = some v) (hval : v.validate objs = .ok ()) :
    o.call objs = .ok (o.setObjs
      (if isFlattenerCls o.cls && o.flattenFlag then flatten o objs else objs)) := by
  rw [call_eq o objs v hv, hval]

theorem validate_ok (v : Validator) (objs : List Obj)
    (hmin : belowMin v objs.length = false) (hmax : aboveMax v objs.length = false)
    (hall : objs.all (fun c => dimOf c.cls == v.child_dim) = true) :
    v.validate objs = .ok () := by
  rw [validate_eq, hmin, hmax, checkChildren_eq, hall]
  rfl

/-- C1 counterexample: Circle(1) + Circle(2) yields the union U12 with
children [Circle 1, Circle 2]; U12 + Circle(3) does NOT have child list
[U12, Circle 3] - the left operand U12 is a same-kind union with the same
(identity) transform as the freshly constructed union, so its children are
spliced in at construction time, giving [Circle 1, Circle 2, Circle 3]. -/
theorem claim1_cex :
    (Circle 1).add (Circle 2) = .ok U12 ∧
    U12.add (Circle 3) = .ok (Obj.mk .Union2D [] IDENTITY
      [Circle 1, Circle 2, Circle 3] [] true) ∧
    ([Circle 1, Circle 2, Circle 3] : List Obj) ≠ [U12, Circle 3] := by
  refine ⟨rfl, rfl, fun hcontra => ?_⟩
  simpa using congrArg List.length hcontra

/-- C1 (amended): for same-capability operands, a - b constructs a fresh
difference node binding exactly [a, b] (difference never flattens), and
a + b constructs a fresh union node whose children are the bind-time
flattening of [a, b]; the children are exactly [a, b] precisely when
neither operand is a same-kind union carrying the fresh union's (identity)
transform.  Flattening thus happens at construction time, not during
pre-processing (which only balances). -/
theorem claim1_amended (a b : Obj) (hab : dimOf b.cls = dimOf a.cls) :
    a.sub b = .ok ((mkOp (diffClsOf (dimOf a.cls)) true).setObjs [a, b]) ∧
    a.add b = .ok ((mkOp (unionClsOf (dimOf a.cls)) true).setObjs
        (flatten (mkOp (unionClsOf (dimOf a.cls)) true) [a, b])) ∧
    ((isFlattenerCls a.cls = false ∨ a.model_matrix ≠ IDENTITY) →
     (isFlattenerCls b.cls = false ∨ b.model_matrix ≠ IDENTITY) →
      a.add b = .ok ((mkOp (unionClsOf (dimOf a.cls)) true).setObjs [a, b])) := by
  have hsub : a.sub b = .ok ((mkOp (diffClsOf (dimOf a.cls)) true).setObjs [a, b]) := by
    cases h : dimOf a.cls
    · simp only [Obj.sub, h, diffClsOf]
      rw [call_ok (mkOp .Diff2D true) [a, b] ⟨.d2, some 1, none⟩ rfl
        (validate_ok ⟨.d2, some 1, none⟩ [a, b] rfl rfl (by simp [h, hab.trans h]))]
      rfl
    · simp only [Obj.sub, h, diffClsOf]
      rw [call_ok (mkOp .Diff3D true) [a, b] ⟨.d3, some 1, none⟩ rfl
        (validate_ok ⟨.d3, some 1, none⟩ [a, b] rfl rfl (by simp [h, hab.trans h]))]
      rfl
  have hadd : a.add b = .ok ((mkOp (unionClsOf (dimOf a.cls)) true).setObjs
      (flatten (mkOp (unionClsOf (dimOf a.cls)) true) [a, b])) := by
    cases h : dimOf a.cls
    · simp only [Obj.add, h, unionClsOf]
      rw [call_ok (mkOp .Union2D true) [a, b] ⟨.d2, some 1, none⟩ rfl
        (validate_ok ⟨.d2, some 1, none⟩ [a, b] rfl rfl (by simp [h, hab.trans h]))]
      rfl
    · simp only [Obj.add, h, unionClsOf]
      rw [call_ok (mkOp .Union3D true) [a, b] ⟨.d3, some 1, none⟩ rfl
        (validate_ok ⟨.d3, some 1, none⟩ [a, b] rfl rfl (by simp [h, hab.trans h]))]
      rfl
  refine ⟨hsub, hadd, fun ha hb => ?_⟩
  rw [hadd]
  have hnosplice : ∀ o : Obj, (isFlattenerCls o.cls = false ∨ o.model_matrix ≠ IDENTITY) →
      ¬(o.cls = (mkOp (unionClsOf (dimOf a.cls)) true).cls ∧
        o.model_matrix = (mkOp (unionClsOf (dimOf a.cls)) true).model_matrix) := by
    rintro o ho ⟨h1, h2⟩
    rcases ho with hf | hm
    · rw [show (mkOp (unionClsOf (dimOf a.cls)) true).cls = unionClsOf (dimOf a.cls)
          from rfl] at h1
      cases hd : dimOf a.cls <;> rw [hd] at h1 <;> rw [h1] at hf <;>
        simp [isFlattenerCls, unionClsOf] at hf
    · apply hm
      rw [h2]
      cases dimOf a.cls <;> rfl
  have hfl : flatten (mkOp (unionClsOf (dimOf a.cls)) true) [a, b] = [a, b] := by
    simp only [flatten, List.flatMap_cons, List.flatMap_nil, List.append_nil]
    rw [if_neg (hnosplice a ha), if_neg (hnosplice b hb)]
    rfl
  rw [hfl]

/-- Witness for C1 (amended) at two circles: both sugars bind exactly the
two operands. -/
theorem claim1_witness :
    (Circle 1).sub (Circle 2) = .ok ((mkOp .Diff2D true).setObjs [Circle 1, Circle 2]) ∧
    (Circle 1).add (Circle 2) = .ok ((mkOp .Union2D true).setObjs [Circle 1, Circle 2]) := by
  have h := claim1_amended (Circle 1) (Circle 2) rfl
  exact ⟨h.1, h.2.2 (Or.inl rfl) (Or.inl rfl)⟩

/-- C3: binding a union node with flattening enabled splices, in place of
each operand, the children of every operand that is a union of the exact
same class - which fixes the operation kind and the 2D/3D capability - with
a componentwise-equal model matrix, keeping all other operands; the
witness instantiates this at union(a, union(b, c)) with identical
transforms, whose bound child list is [a, b, c], not a nested structure. -/
theorem claim3_flatten_splice (u : Obj) (objs : List Obj) (v : Validator)
    (hcls : isFlattenerCls u.cls = true) (hflag : u.flattenFlag = true)
    (hv : validatorOf u.cls = some v) (hval : v.validate objs = .ok ()) :
    u.call objs = .ok (u.setObjs (objs.flatMap fun o =>
      if o.cls = u.cls ∧ o.model_matrix = u.model_matrix then o.objs else [o])) := by
  rw [call_ok u objs v hv hval, hcls, hflag]
  simp [flatten]

/-- Witness for C3: Union2D()(a, Union2D()(b, c)) with all transforms at
the identity binds the single flat child list [a, b, c]. -/
theorem claim3_witness :
    (mkOp .Union2D true).call
        [Circle 1, Obj.mk .Union2D [] IDENTITY [Circle 2, Circle 3] [] true] =
      .ok (Obj.mk .Union2D [] IDENTITY [Circle 1, Circle 2, Circle 3] [] true) := by
  have h := claim3_flatten_splice (mkOp .Union2D true)
    [Circle 1, .mk .Union2D [] IDENTITY [Circle 2, Circle 3] [] true]
    ⟨.d2, some 1, none⟩ rfl rfl rfl rfl
  exact h

/-- C5: binding a combinator with a child count below its declared minimum
or above its declared maximum fails at bind time with the arity assert
(so a one-or-more combinator rejects zero children and an exactly-two
combinator rejects three children), and binding a child whose 2D/3D
capability does not match the combinator's required child capability fails
at bind time with the capability assert; when the count is in range and
all capabilities match, binding succeeds.  Obj.call returns the error
directly, so the failure happens at bind time, not at serialization. -/
theorem claim5_validation (o : Obj) (objs : List Obj) (v : Validator)
    (hv : validatorOf o.cls = some v) :
    (belowMin v objs.length = true → o.call objs = .error .arityError) ∧
    (belowMin v objs.length = false → aboveMax v objs.length = true →
      o.call objs = .error .arityError) ∧
    (belowMin v objs.length = false → aboveMax v objs.length = false →
      objs.any (fun c => dimOf c.cls != v.child_dim) = true →
      o.call objs = .error .typeMismatchError) ∧
    (belowMin v objs.length = false → aboveMax v objs.length = false →
      objs.any (fun c => dimOf c.cls != v.child_dim) = false →
      ∃ u, o.call objs = .ok u) := by
  have hc := call_eq o objs v hv
  have hval := validate_eq v objs
  refine ⟨fun h1 => ?_, fun h1 h2 => ?_, fun h1 h2 h3 => ?_, fun h1 h2 h3 => ?_⟩
  · rw [hc, hval, h1]
    rfl
  · rw [hc, hval, h1, h2]
    rfl
  · have hall : objs.all (fun c => dimOf c.cls == v.child_dim) = false := by
      rcases List.any_eq_true.mp h3 with ⟨c, hcmem, hne⟩
      cases hA : objs.all (fun c => dimOf c.cls == v.child_dim)
      · rfl
      · have := List.all_eq_true.mp hA c hcmem
        simp only [bne_iff_ne, beq_iff_eq] at hne this
        exact absurd this hne
    rw [hc, hval, h1, h2, checkChildren_eq, hall]
    rfl
  · have hall : objs.all (fun c => dimOf c.cls == v.child_dim) = true := by
      rw [List.all_eq_true]
      intro c hcmem
      by_contra hcon
      have : objs.any (fun c => dimOf c.cls != v.child_dim) = true := by
        rw [List.any_eq_true]
        refine ⟨c, hcmem, ?_⟩
        simp only [bne_iff_ne, beq_iff_eq] at hcon ⊢
        exact hcon
      rw [this] at h3
      exact Bool.true_eq_false.mp h3
    refine ⟨o.setObjs (if isFlattenerCls o.cls && o.flattenFlag then
      flatten o objs else objs), ?_⟩
    rw [hc, hval, h1, h2, checkChildren_eq, hall]
    rfl

/-- Witness for C5 at concrete nodes: Diff3D (a one-or-more combinator)
bound with zero children and Minkowski2D (an exactly-two combinator) bound
with three children both fail with the arity error, and LinearExtrude
(which requires a 2D child) bound with a Cube fails with the capability
mismatch error. -/
theorem claim5_witness :
    (mkOp .Diff3D true).call [] = .error .arityError ∧
    (mkOp .Minkowski2D true).call [Circle 1, Circle 2, Circle 3] = .error .arityError ∧
    (LinearExtrude 1).call [Cube 45 true] = .error .typeMismatchError := by
  refine ⟨?_, ?_, ?_⟩
  · exact (claim5_validation (mkOp .Diff3D true) [] ⟨.d3, some 1, none⟩ rfl).1 rfl
  · exact (claim5_validation (mkOp .Minkowski2D true) [Circle 1, Circle 2, Circle 3]
      ⟨.d2, some 2, some 2⟩ rfl).2.1 rfl rfl
  · exact (claim5_validation (LinearExtrude 1) [Cube 45 true]
      ⟨.d2, some 1, some 1⟩ rfl).2.2.1 rfl rfl rfl

theorem to_vec4_w_eq_zero (v : VecInput) (w : Vec4)
    (h : to_vec4 v = some w) (hl : v.len ≤ 3) : w.w = 0 := by
  cases v with
  | pylist cs =>
      simp only [to_vec4, VecInput.len] at h hl
      rw [if_pos (by omega)] at h
      cases hh : to_vec3 (.pylist cs) with
      | none => rw [hh] at h; simp at h
      | some u =>
          rw [hh] at h
          simp only [Option.map_some', Option.some.injEq] at h
          rw [← h]
  | gvec cs =>
      simp only [to_vec4, VecInput.len] at h hl
      rw [if_neg (by omega)] at h
      by_cases h23 : cs.length = 2 ∨ cs.length = 3
      · rw [if_pos h23] at h
        cases hh : to_vec3 (.gvec cs) with
        | none => rw [hh] at h; simp at h
        | some u =>
            rw [hh] at h
            simp only [Option.map_some', Option.some.injEq] at h
            rw [← h]
      · rw [if_neg h23] at h
        simp at h

theorem Obj.setMM_model_matrix (o : Obj) (m : Mat4) : (o.setMM m).model_matrix = m := by
  cases o
  rfl

theorem Obj.setMM_setMM (o : Obj) (m1 m2 : Mat4) : (o.setMM m1).setMM m2 = o.setMM m2 := by
  cases o
  rfl

/-- C4: translating a node by v1 and then by v2 adds the 4-vector
extensions of v1 and v2 (with w component 0) to the translation column of
the node's transform, leaving the other three columns untouched, and the
translation column's w component - 1 on every node the library builds - is
unchanged.  The update replaces the translation column by
old column + v; since the other columns are not touched at all, no matrix
multiplication against the prior rotation/scale takes place. -/
theorem claim4_translate_composition (o : Obj) (v1 v2 : VecInput) (w1 w2 : Vec4)
    (h1 : to_vec4 v1 = some w1) (h2 : to_vec4 v2 = some w2)
    (hl1 : v1.len ≤ 3) (hl2 : v2.len ≤ 3) :
    w1.w = 0 ∧ w2.w = 0 ∧
    (translate v1 o).bind (translate v2) =
      some (o.setMM ⟨o.model_matrix.c0, o.model_matrix.c1, o.model_matrix.c2,
                     (o.model_matrix.c3.add w1).add w2⟩) ∧
    ((o.model_matrix.c3.add w1).add w2).w = o.model_matrix.c3.w := by
  have hw1 := to_vec4_w_eq_zero v1 w1 h1 hl1
  have hw2 := to_vec4_w_eq_zero v2 w2 h2 hl2
  refine ⟨hw1, hw2, ?_, ?_⟩
  · cases o with
    | mk c a m os sp f =>
        simp [translate, h1, h2, Obj.setMM, translateMM, Obj.model_matrix]
  · simp [Vec4.add, hw1, hw2]

/-- Witness for C4: the cube translated by [1, 2, 3] and then by the
under-specified [10] ends with translation column (11, 2, 3, 1). -/
theorem claim4_witness :
    (translate (.pylist [1, 2, 3]) (Cube 45 true)).bind (translate (.pylist [10])) =
      some ((Cube 45 true).setMM
        ⟨⟨1, 0, 0, 0⟩, ⟨0, 1, 0, 0⟩, ⟨0, 0, 1, 0⟩, ⟨11, 2, 3, 1⟩⟩) := by
  have h := (claim4_translate_composition (Cube 45 true) (.pylist [1, 2, 3])
    (.pylist [10]) ⟨1, 2, 3, 0⟩ ⟨10, 0, 0, 0⟩ rfl rfl (by decide) (by decide)).2.2.1
  have hm : (⟨(Cube 45 true).model_matrix.c0, (Cube 45 true).model_matrix.c1,
      (Cube 45 true).model_matrix.c2,
      (((Cube 45 true).model_matrix.c3.add ⟨1, 2, 3, 0⟩).add ⟨10, 0, 0, 0⟩)⟩ : Mat4) =
      ⟨⟨1, 0, 0, 0⟩, ⟨0, 1, 0, 0⟩, ⟨0, 0, 1, 0⟩, ⟨11, 2, 3, 1⟩⟩ := by
    norm_num [Cube, Obj.model_matrix, IDENTITY, Vec4.add]
  rw [h, hm]

/-- C6 counterexample: scale given the one-component glm vector vec1(2) -
accepted by to_vec3, hence by the scale operator - bypasses the list/tuple
1-padding, so to_vec3 pads the missing Y and Z with 0, not 1: the
effective scale vector is (2, 0, 0) and the node's Y and Z axes are scaled
by 0 rather than left at unit scale. -/
theorem claim6_cex :
    scaleVec (.gvec [2]) = some ⟨2, 0, 0⟩ ∧
    (⟨2, 0, 0⟩ : Vec3) ≠ ⟨2, 1, 1⟩ ∧
    scale (.gvec [2]) (Cube 45 true) = some ((Cube 45 true).setMM
      ⟨⟨2, 0, 0, 0⟩, ⟨0, 0, 0, 0⟩, ⟨0, 0, 0, 0⟩, ⟨0, 0, 0, 1⟩⟩) := by
  refine ⟨rfl, by simp, ?_⟩
  show (scaleVec (.gvec [2])).map _ = _
  rw [show scaleVec (.gvec [2]) = some ⟨2, 0, 0⟩ from rfl]
  simp only [Option.map_some']
  have hm : scaleMM (Cube 45 true).model_matrix ⟨2, 0, 0⟩ =
      ⟨⟨2, 0, 0, 0⟩, ⟨0, 0, 0, 0⟩, ⟨0, 0, 0, 0⟩, ⟨0, 0, 0, 1⟩⟩ := by
      norm_num [scaleMM, Cube, Obj.model_matrix, IDENTITY, Vec4.smul]
  rw [hm]

/-- C6 (amended): for an under-specified list/tuple vector the missing
trailing components default to 0 in to_vec3 and to_vec4 (positions and
directions, used by translate), while the scale operator first pads a
list/tuple with 1, so scale([2]) scales only X leaving Y and Z at unit
scale; an under-specified glm vector, however, reaches to_vec3 directly
even in scale, where the missing components become 0 (see the
counterexample), so the default-to-1 rule holds for list/tuple inputs
only. -/
theorem claim6_amended (cs : List Scalar) (h : cs.length < 3) :
    scaleVec (.pylist cs) = some ⟨cs.getD 0 1, cs.getD 1 1, cs.getD 2 1⟩ ∧
    to_vec3 (.pylist cs) = some ⟨cs.getD 0 0, cs.getD 1 0, cs.getD 2 0⟩ ∧
    to_vec3 (.gvec cs) = some ⟨cs.getD 0 0, cs.getD 1 0, cs.getD 2 0⟩ ∧
    to_vec4 (.pylist cs) = some ⟨cs.getD 0 0, cs.getD 1 0, cs.getD 2 0, 0⟩ ∧
    scale (.pylist [2]) (Cube 45 true) = some ((Cube 45 true).setMM
      ⟨⟨2, 0, 0, 0⟩, ⟨0, 1, 0, 0⟩, ⟨0, 0, 1, 0⟩, ⟨0, 0, 0, 1⟩⟩) := by
  have hscale : scale (.pylist [2]) (Cube 45 true) = some ((Cube 45 true).setMM
      ⟨⟨2, 0, 0, 0⟩, ⟨0, 1, 0, 0⟩, ⟨0, 0, 1, 0⟩, ⟨0, 0, 0, 1⟩⟩) := by
    show (scaleVec (.pylist [2])).map _ = _
    rw [show scaleVec (.pylist [2]) = some ⟨2, 1, 1⟩ from rfl]
    simp only [Option.map_some']
    have hm : scaleMM (Cube 45 true).model_matrix ⟨2, 1, 1⟩ =
        ⟨⟨2, 0, 0, 0⟩, ⟨0, 1, 0, 0⟩, ⟨0, 0, 1, 0⟩, ⟨0, 0, 0, 1⟩⟩ := by
      norm_num [scaleMM, Cube, Obj.model_matrix, IDENTITY, Vec4.smul]
    rw [hm]
  match cs, h with
  | [], _ => exact ⟨rfl, rfl, rfl, rfl, hscale⟩
  | [a], _ => exact ⟨rfl, rfl, rfl, rfl, hscale⟩
  | [a, b], _ => exact ⟨rfl, rfl, rfl, rfl, hscale⟩

/-- Witness for C6 at the concrete input [2]: scale pads with 1, the
position conversion pads with 0. -/
theorem claim6_witness :
    scaleVec (.pylist [2]) = some ⟨2, 1, 1⟩ ∧
    to_vec4 (.pylist [2]) = some ⟨2, 0, 0, 0⟩ := by
  have h := claim6_amended [2] (by decide)
  exact ⟨h.1, h.2.2.2.1⟩

/-- C7: each of the four transform operators first clones the node via
Obj.copy and updates the clone only, so after each operation the heap
still holds every pre-existing cell unchanged (the result heap is the old
cells plus one appended clone): the input node's transform matrix, kind,
attributes and children are untouched; the returned reference is a fresh
cell, not the input's; and the clone differs from the input only in its
model matrix (composed per the operator), in particular the clone's objs
field is the same child reference sequence, re-referenced and not
deep-copied.  The rotation matrix and unit mirror normal are the
library-computed values, taken as inputs per the spec's scope. -/
theorem claim7_copy_on_write (h : Heap) (i : ℕ) (vt vs : VecInput) (w : Vec4) (s : Vec3)
    (rm : Mat4) (nu : Vec3) (d : ObjData)
    (hd : h.get? i = some d) (hw : to_vec4 vt = some w) (hs : scaleVec vs = some s) :
    h.translate vt i = some
      (⟨h.cells ++ [{ d with model_matrix := translateMM d.model_matrix w }]⟩,
       h.cells.length) ∧
    h.rotate rm i = some
      (⟨h.cells ++ [{ d with model_matrix := rm.mul d.model_matrix }]⟩,
       h.cells.length) ∧
    h.scale vs i = some
      (⟨h.cells ++ [{ d with model_matrix := scaleMM d.model_matrix s }]⟩,
       h.cells.length) ∧
    h.mirror nu i = some
      (⟨h.cells ++ [{ d with model_matrix := mirrorCols nu d.model_matrix }]⟩,
       h.cells.length) := by
  have hcopy : h.copy i = (⟨h.cells ++ [d]⟩, h.cells.length) := by
    simp [Heap.copy, hd]
  have hget2 : (Heap.mk (h.cells ++ [d])).get? h.cells.length = some d := by
    simp [Heap.get?]
  have hset : ∀ x : ObjData,
      (Heap.mk (h.cells ++ [d])).setCell h.cells.length x = ⟨h.cells ++ [x]⟩ := by
    intro x
    simp [Heap.setCell, List.set_append_right _ _ (Nat.le_refl h.cells.length)]
  refine ⟨?_, ?_, ?_, ?_⟩ <;>
    simp [Heap.translate, Heap.rotate, Heap.scale, Heap.mirror, hcopy, hget2, hw, hs, hset]

/-- Witness for C7: translating the bound union in the three-cell heap
appends a clone (sharing the child references [0, 1]) with the translation
applied, and leaves cells 0..2 unchanged. -/
theorem claim7_witness :
    heapCOW.translate (.pylist [1, 2]) 2 = some
      (⟨heapCOW.cells ++
        [{ (⟨.Union2D, [], IDENTITY, [0, 1], [], true⟩ : ObjData) with
            model_matrix := translateMM IDENTITY ⟨1, 2, 0, 0⟩ }]⟩, 3) := by
  exact (claim7_copy_on_write heapCOW 2 (.pylist [1, 2]) (.pylist [1, 2])
    ⟨1, 2, 0, 0⟩ ⟨1, 2, 1⟩ IDENTITY ⟨1, 0, 0⟩ ⟨.Union2D, [], IDENTITY, [0, 1], [], true⟩
    rfl rfl rfl).1

/-- C10 counterexample: rebinding the already-bound union node (cell 4,
currently bound to [0]) with the new, validation-passing child list [3]
succeeds and returns the same node, but because cell 3 is a same-class
union with an equal transform, the bind-time flatten step stores the
spliced list [1, 2] - not the new list [3] itself. -/
theorem claim10_cex :
    heapRebind.call 4 [3] = .ok (heapRebind.setCell 4
      ⟨.Union2D, [], IDENTITY, [1, 2], [], true⟩, 4) ∧
    ([1, 2] : List ℕ) ≠ [3] := by
  exact ⟨rfl, by decide⟩

/-- C10 (amended): binding is not enforced as one-time - calling an
already-bound combinator node again with a new child list that passes
validation raises no error, returns the same node reference, and silently
replaces the previous children (which are dropped without warning) with
the result of the node's usual bind step on the new list: the new list
itself for plain combinators, its bind-time flattening for union nodes
with flattening enabled. -/
theorem claim10_rebind (h : Heap) (i : ℕ) (d : ObjData) (new : List ℕ) (v : Validator)
    (hd : h.get? i = some d) (hbound : d.objs ≠ [])
    (hv : validatorOf d.cls = some v) (hval : v.validateH h new = .ok ()) :
    h.call i new = .ok (h.setCell i { d with objs :=
      (if isFlattenerCls d.cls then
        (if d.flattenFlag then flattenH h d.cls d.model_matrix new else new)
      else new) }, i) := by
  simp [Heap.call, hd, hv, hval]

/-- Witness for C10: the rebinding of cell 4 in the concrete heap via the
amended theorem. -/
theorem claim10_witness :
    heapRebind.call 4 [3] = .ok (heapRebind.setCell 4
      ⟨.Union2D, [], IDENTITY, [1, 2], [], true⟩, 4) := by
  have h := claim10_rebind heapRebind 4 ⟨.Union2D, [], IDENTITY, [0], [], true⟩ [3]
    ⟨.d2, some 1, none⟩ rfl (by simp) rfl rfl
  exact h

/-- C8 (code bug): serializing a bound Sweep node appends the child's
serialized element twice - once from the generic child loop of
Obj.to_element and once again from Sweep._get_child_nodes, which wraps a
second serialization of the child together with the spline_path element -
so the sweep element's children are [circle, circle, spline_path] instead
of the child appended once followed by the spline_path payload.  The
spline_path element itself does carry one cpoint per control point with
x, y, z and vx, vy, vz attributes. -/
theorem claim8_sweep_duplicates_child :
    (Sweep sweepPath).call [Circle 17] = .ok boundSweep ∧
    boundSweep.to_element = .mk "sweep" []
      [circleElem, circleElem, splineElem sweepPath] ∧
    splineElem sweepPath = .mk "spline_path" []
      [.mk "cpoint" [("x", .q 1), ("y", .q 2), ("z", .q 3),
                     ("vx", .q 0), ("vy", .q 0), ("vz", .q 1)] []] ∧
    [circleElem, circleElem, splineElem sweepPath] ≠ [circleElem, splineElem sweepPath] := by
  refine ⟨rfl, ?_, rfl, fun hcontra => ?_⟩
  · rfl
  · simpa using congrArg List.length hcontra

-- -----------------------------------------------------------------
-- Balancing: structural lemmas
-- -----------------------------------------------------------------

theorem pairUp_length (cls : Cls) : ∀ l : List Obj, (pairUp cls l).length = l.length / 2
  | [] => rfl
  | [_] => by simp [pairUp]
  | [_, _] => by simp [pairUp]
  | [_, _, _] => by simp [pairUp]
  | p0 :: p1 :: p2 :: p3 :: rest => by
      have ih := pairUp_length cls (p2 :: p3 :: rest)
      simp only [pairUp, List.length_cons, ih]
      omega

theorem tree_structF_fuel (cls : Cls) :
    ∀ (fuel : ℕ) (parts : List Obj), parts.length ≤ fuel →
      tree_structF cls fuel parts = tree_structF cls (fuel + 1) parts := by
  intro fuel
  induction fuel with
  | zero =>
      intro parts hp
      have : parts = [] := List.eq_nil_of_length_eq_zero (Nat.le_zero.mp hp)
      subst this
      rfl
  | succ fuel ih =>
      intro parts hp
      show (if parts.length ≤ 3 then parts else tree_structF cls fuel (pairUp cls parts)) =
        (if parts.length ≤ 3 then parts else tree_structF cls (fuel + 1) (pairUp cls parts))
      by_cases h3 : parts.length ≤ 3
      · rw [if_pos h3, if_pos h3]
      · rw [if_neg h3, if_neg h3]
        exact ih (pairUp cls parts) (by rw [pairUp_length]; omega)

theorem tree_structF_mono (cls : Cls) (parts : List Obj) :
    ∀ f1 f2 : ℕ, parts.length ≤ f1 → f1 ≤ f2 →
      tree_structF cls f1 parts = tree_structF cls f2 parts := by
  intro f1 f2 h1 h12
  induction f2, h12 using Nat.le_induction with
  | base => rfl
  | succ f2 hf2 ih => rw [ih, tree_structF_fuel cls f2 parts (Nat.le_trans h1 hf2)]

theorem tree_structF_le3 (cls : Cls) (fuel : ℕ) (parts : List Obj)
    (h3 : parts.length ≤ 3) : tree_structF cls fuel parts = parts := by
  cases fuel with
  | zero => rfl
  | succ n =>
      show (if parts.length ≤ 3 then parts else _) = parts
      rw [if_pos h3]

/-- Unfolding law certifying that the fuel in tree_structF never runs out:
tree_struct satisfies exactly the recursion of impl.py. -/
theorem tree_struct_unfold (cls : Cls) (parts : List Obj) :
    tree_struct cls parts =
      if parts.length ≤ 3 then parts else tree_struct cls (pairUp cls parts) := by
  by_cases h3 : parts.length ≤ 3
  · rw [if_pos h3]
    exact tree_structF_le3 cls parts.length parts h3
  · rw [if_neg h3]
    show tree_structF cls parts.length parts = tree_struct cls (pairUp cls parts)
    have hlen : (pairUp cls parts).length = parts.length / 2 := pairUp_length cls parts
    obtain ⟨m, hm⟩ : ∃ m, parts.length = m + 1 := ⟨parts.length - 1, by omega⟩
    rw [hm]
    show (if parts.length ≤ 3 then parts else tree_structF cls m (pairUp cls parts)) = _
    rw [if_neg h3]
    show tree_structF cls m (pairUp cls parts) =
      tree_structF cls (pairUp cls parts).length (pairUp cls parts)
    rw [tree_structF_mono cls (pairUp cls parts) (pairUp cls parts).length m
      (Nat.le_refl _) (by omega)]

theorem LayerOver.mono {cls : Cls} {parts : List Obj} {k k2 : ℕ} {o : Obj}
    (h : LayerOver cls parts k o) (hk : k ≤ k2) : LayerOver cls parts k2 o := by
  induction k2, hk using Nat.le_induction with
  | base => exact h
  | succ k2 hk ih => exact .lift ih

theorem pairUp_layer (cls : Cls) (parts : List Obj) (k : ℕ) :
    ∀ l : List Obj, (∀ o ∈ l, LayerOver cls parts k o) →
      ∀ o ∈ pairUp cls l, LayerOver cls parts (k + 1) o
  | [] => by intro _ o ho; simp [pairUp] at ho
  | [_] => by intro _ o ho; simp [pairUp] at ho
  | [p0, p1] => by
      intro hl o ho
      simp only [pairUp, List.mem_singleton] at ho
      subst ho
      exact .node (fun c hc => hl c (by simpa using hc)) (Or.inl rfl)
  | [p0, p1, p2] => by
      intro hl o ho
      simp only [pairUp, List.mem_singleton] at ho
      subst ho
      exact .node (fun c hc => hl c (by simpa using hc)) (Or.inr rfl)
  | p0 :: p1 :: p2 :: p3 :: rest => by
      intro hl o ho
      simp only [pairUp, List.mem_cons] at ho
      rcases ho with ho | ho
      · subst ho
        refine .node (fun c hc => hl c ?_) (Or.inl rfl)
        rcases List.mem_pair.mp hc with h | h <;> subst h <;> simp
      · exact pairUp_layer cls parts k (p2 :: p3 :: rest)
          (fun c hc => hl c (by simp only [List.mem_cons] at hc ⊢; tauto)) o ho

theorem tree_struct_layer (cls : Cls) (parts : List Obj) (l : List Obj) (k : ℕ)
    (hl : ∀ o ∈ l, LayerOver cls parts k o) :
    ∀ o ∈ tree_struct cls l, LayerOver cls parts (k + Nat.log2 l.length) o := by
  rw [tree_struct_unfold]
  by_cases h3 : l.length ≤ 3
  · rw [if_pos h3]
    intro o ho
    exact (hl o ho).mono (Nat.le_add_right k _)
  · rw [if_neg h3]
    intro o ho
    have hpu := pairUp_layer cls parts k l hl
    have ih := tree_struct_layer cls parts (pairUp cls l) (k + 1) hpu o ho
    have hlen : (pairUp cls l).length = l.length / 2 := pairUp_length cls l
    rw [hlen] at ih
    have hlog : Nat.log2 l.length = Nat.log2 (l.length / 2) + 1 := by
      rw [Nat.log2, if_pos (by omega : 2 ≤ l.length)]
    rw [hlog]
    have harith : k + 1 + Nat.log2 (l.length / 2) = k + (Nat.log2 (l.length / 2) + 1) := by
      omega
    rw [harith] at ih
    exact ih
termination_by l.length
decreasing_by rw [pairUp_length]; omega

theorem Obj.setObjs_objs (o : Obj) (l : List Obj) : (o.setObjs l).objs = l := by
  cases o
  rfl

/-- C2: for a union node with more than 3 (already-flattened,
already-validated, same-capability) children, tree_children rewrites the
child list into a balanced structure: every element of the new child list
is, per the LayerOver predicate, a tree over the original operand list in
which each newly created node is a union of the same class with
flattening disabled carrying exactly 2 or 3 children - never 1 - and in
which at most log2(n) levels of created nodes sit above the original
operands, so the depth is O(log n) in the operand count; a child list of
3 or fewer operands is left completely unchanged.  The capability
hypothesis delimits the runs on which the MoreChildren asserts inside
tree_struct's node constructions succeed, as they do on every tree the
library builds. -/
theorem claim2_balance_shape (u : Obj)
    (hu : isFlattenerCls u.cls = true)
    (hdim : ∀ o ∈ u.objs, dimOf o.cls = dimOf u.cls) :
    (3 < u.objs.length →
      ∀ o ∈ (tree_children u).objs,
        LayerOver u.cls u.objs (Nat.log2 u.objs.length) o) ∧
    (u.objs.length ≤ 3 → tree_children u = u) := by
  constructor
  · intro h3 o ho
    rw [show (tree_children u).objs = tree_struct u.cls u.objs from
      Obj.setObjs_objs u _] at ho
    have hl : ∀ p ∈ u.objs, LayerOver u.cls u.objs 0 p := fun p hp => .base hp
    have h := tree_struct_layer u.cls u.objs u.objs 0 hl o ho
    simpa using h
  · intro h3
    show u.setObjs (tree_struct u.cls u.objs) = u
    rw [tree_struct_unfold, if_pos h3, Obj.setObjs_self]

/-- Witness for C2: the five-cube union3d balances into the two created
nodes pair(c1, c2) and ternary(c3, c4, c5), each a LayerOver tree of
2-3-ary created nodes of depth at most log2(5) = 2 above the cubes. -/
theorem claim2_witness :
    (tree_children balanceInput).objs =
      [bindNF .Union3D [Cube 1 true, Cube 2 true],
       bindNF .Union3D [Cube 3 true, Cube 4 true, Cube 5 true]] ∧
    LayerOver balanceInput.cls balanceInput.objs (Nat.log2 balanceInput.objs.length)
      (bindNF .Union3D [Cube 1 true, Cube 2 true]) ∧
    LayerOver balanceInput.cls balanceInput.objs (Nat.log2 balanceInput.objs.length)
      (bindNF .Union3D [Cube 3 true, Cube 4 true, Cube 5 true]) := by
  have h := (claim2_balance_shape balanceInput rfl (by decide)).1 (by decide)
  have hobjs : (tree_children balanceInput).objs =
      [bindNF .Union3D [Cube 1 true, Cube 2 true],
       bindNF .Union3D [Cube 3 true, Cube 4 true, Cube 5 true]] := rfl
  refine ⟨hobjs, h _ ?_, h _ ?_⟩ <;> rw [hobjs] <;> simp

mutual

theorem Obj.deep_copy_eq : ∀ o : Obj, o.deep_copy = o
  | .mk c a m objs s f => by
      show Obj.mk c a m (deepCopyList objs) s f = Obj.mk c a m objs s f
      rw [deepCopyList_eq objs]

theorem deepCopyList_eq : ∀ l : List Obj, deepCopyList l = l
  | [] => rfl
  | o :: rest => by
      show o.deep_copy :: deepCopyList rest = o :: rest
      rw [Obj.deep_copy_eq o, deepCopyList_eq rest]

end

theorem pairUp_cons (cls : Cls) (p0 p1 : Obj) (rest : List Obj) (h2 : 2 ≤ rest.length) :
    pairUp cls (p0 :: p1 :: rest) = bindNF cls [p0, p1] :: pairUp cls rest := by
  rcases rest with _ | ⟨r0, _ | ⟨r1, rest2⟩⟩
  · simp at h2
  · simp at h2
  · rfl

theorem pairUp_odd_tail (cls : Cls) :
    ∀ (l1 : List Obj) (a b c : Obj), l1.length % 2 = 0 →
      pairUp cls (l1 ++ [a, b, c]) = pairUp cls l1 ++ [bindNF cls [a, b, c]]
  | [], a, b, c, _ => rfl
  | [x], a, b, c, h => by simp at h
  | x :: y :: l1, a, b, c, h => by
      have hlen : 2 ≤ (l1 ++ [a, b, c]).length := by simp
      rw [List.cons_append, List.cons_append, pairUp_cons cls x y (l1 ++ [a, b, c]) hlen]
      have ih := pairUp_odd_tail cls l1 a b c (by
        simp only [List.length_cons] at h
        omega)
      rw [ih]
      rcases l1 with _ | ⟨z, _ | ⟨w, l1sub⟩⟩
      · rfl
      · simp only [List.length_cons, List.length_nil] at h
        omega
      · rfl

/-- C9: balancing is deterministic and its grouping order is a fixed
function of the input sequence: (i) running tree_struct on a deep copy of
the operand list yields exactly the same result as running it on the list
itself - in this value model, structural identity of the outputs, the
Python objects differing only by machine identity; (ii) pairing is
strictly left-to-right, the first two elements always forming the first
created group; (iii) for an odd-length list the single ternary group is
placed at the tail, grouping the last three elements. -/
theorem claim9_balance_deterministic (cls : Cls) (l rest l1 : List Obj)
    (p0 p1 a b c : Obj) (h2 : 2 ≤ rest.length) (heven : l1.length % 2 = 0) :
    tree_struct cls (deepCopyList l) = tree_struct cls l ∧
    pairUp cls (p0 :: p1 :: rest) = bindNF cls [p0, p1] :: pairUp cls rest ∧
    pairUp cls (l1 ++ [a, b, c]) = pairUp cls l1 ++ [bindNF cls [a, b, c]] := by
  exact ⟨by rw [deepCopyList_eq], pairUp_cons cls p0 p1 rest h2,
    pairUp_odd_tail cls l1 a b c heven⟩

/-- Witness for C9 on concrete cube lists. -/
theorem claim9_witness :
    tree_struct .Union3D (deepCopyList [Cube 1 true]) =
      tree_struct .Union3D [Cube 1 true] ∧
    pairUp .Union3D (Cube 1 true :: Cube 2 true :: [Cube 3 true, Cube 4 true]) =
      bindNF .Union3D [Cube 1 true, Cube 2 true] ::
        pairUp .Union3D [Cube 3 true, Cube 4 true] ∧
    pairUp .Union3D ([Cube 1 true, Cube 2 true] ++
        [Cube 3 true, Cube 4 true, Cube 5 true]) =
      pairUp .Union3D [Cube 1 true, Cube 2 true] ++
        [bindNF .Union3D [Cube 3 true, Cube 4 true, Cube 5 true]] := by
  exact claim9_balance_deterministic .Union3D [Cube 1 true] [Cube 3 true, Cube 4 true]
    [Cube 1 true, Cube 2 true] (Cube 1 true) (Cube 2 true) (Cube 3 true) (Cube 4 true)
    (Cube 5 true) (by decide) (by decide)

end Xcsg
